import Mathlib

/-!
Formal model of the HTTP/2 server request-serving core of this repository
(`core/http2_server`), as exercised by the repository's unit tests
(`src/unnamed/part_000`, the `Http2ServerTest` suite).  The implementation
file `http2_server.cc` is not part of the source snapshot; the operational
definitions below are modelled from the specification (spec.md §3-§7), with
the repository's unit tests taking precedence wherever they pin behavior
beyond the spec's words (in particular, the `OnHttp2PendingCallbackFailure`
test pins that the first leg to record a failure finishes the transport
context immediately, before the pending-leg counter reaches zero).
-/

/-- Outcome of an operation. Mirrors `ExecutionResult` with its
`ExecutionStatus` (success, failure, retry) and numeric status code. -/
inductive ExecutionResult where
  | success : ExecutionResult
  | failure (code : Nat) : ExecutionResult
  | retry (code : Nat) : ExecutionResult
deriving DecidableEq, Repr

/-- Mirrors `ExecutionResult::Successful()`: true exactly on success. -/
def ExecutionResult.Successful : ExecutionResult → Bool
  | .success => true
  | _ => false

/-- Mirrors `SuccessExecutionResult()`. -/
def SuccessExecutionResult : ExecutionResult := .success

/-- Mirrors `FailureExecutionResult(code)`. -/
def FailureExecutionResult (code : Nat) : ExecutionResult := .failure code

namespace errors

/-- Error code `SC_HTTP2_SERVER_ALREADY_RUNNING` (symbolic value; the numeric
values only need to be pairwise distinct in this model). -/
def SC_HTTP2_SERVER_ALREADY_RUNNING : Nat := 1

/-- Error code `SC_HTTP2_SERVER_ALREADY_STOPPED`. -/
def SC_HTTP2_SERVER_ALREADY_STOPPED : Nat := 2

/-- Error code `SC_HTTP2_SERVER_FAILED_TO_INITIALIZE_TLS_CONTEXT`. -/
def SC_HTTP2_SERVER_FAILED_TO_INITIALIZE_TLS_CONTEXT : Nat := 3

/-- Error code `SC_CONCURRENT_MAP_ENTRY_ALREADY_EXISTS`. -/
def SC_CONCURRENT_MAP_ENTRY_ALREADY_EXISTS : Nat := 4

/-- Error code `SC_CONCURRENT_MAP_ENTRY_DOES_NOT_EXIST`. -/
def SC_CONCURRENT_MAP_ENTRY_DOES_NOT_EXIST : Nat := 5

end errors

namespace ConcurrentMap

variable {κ ν : Type} [DecidableEq κ]

/-- Modelled from the spec: the concurrent-map primitive backing the Request
Registry and the Route Table (spec.md §3): "concurrent mapping ... unique
keys. Insert fails if key present; lookup/erase report absence distinctly
from success." The map is represented as a function to `Option`. -/
def Find (m : κ → Option ν) (k : κ) : ExecutionResult × Option ν :=
  match m k with
  | some v => (SuccessExecutionResult, some v)
  | none => (FailureExecutionResult errors.SC_CONCURRENT_MAP_ENTRY_DOES_NOT_EXIST, none)

/-- Modelled from the spec: concurrent-map insert; fails with
`SC_CONCURRENT_MAP_ENTRY_ALREADY_EXISTS` when the key is present and leaves
the map unchanged in that case. -/
def Insert (m : κ → Option ν) (k : κ) (v : ν) : ExecutionResult × (κ → Option ν) :=
  match m k with
  | some _ => (FailureExecutionResult errors.SC_CONCURRENT_MAP_ENTRY_ALREADY_EXISTS, m)
  | none => (SuccessExecutionResult, fun k2 => if k2 = k then some v else m k2)

/-- Modelled from the spec: concurrent-map erase; reports
`SC_CONCURRENT_MAP_ENTRY_DOES_NOT_EXIST` when the key is absent and leaves
the map unchanged in that case. -/
def Erase (m : κ → Option ν) (k : κ) : ExecutionResult × (κ → Option ν) :=
  match m k with
  | some _ => (SuccessExecutionResult, fun k2 => if k2 = k then none else m k2)
  | none => (FailureExecutionResult errors.SC_CONCURRENT_MAP_ENTRY_DOES_NOT_EXIST, m)

end ConcurrentMap

/-- HTTP method of a request, as in `HttpMethod`. -/
inductive HttpMethod where
  | GET | POST | PUT | DELETE | HEAD | PATCH | OPTIONS
deriving DecidableEq, Repr

/-- Modelled from the spec: construction-time configuration of `Http2Server`
(spec.md §6): whether TLS is enabled, the private-key and certificate-chain
files (abstracted to whether each file exists and parses), and the optional
metrics-capability reference (`none` models a null `metric_client`). -/
structure Http2ServerConfig where
  use_tls : Bool
  private_key_file_ok : Bool
  certificate_chain_file_ok : Bool
  metric_client : Option Nat
deriving DecidableEq, Repr

/-- Modelled from the spec: the server lifecycle state machine of §4.1,
`Stopped → Running → Stopped`, held as the `is_running` flag. -/
structure Http2ServerLifecycle where
  is_running : Bool
deriving DecidableEq, Repr

namespace Http2Server

/-- Modelled from the spec: `Http2Server::Run` (§4.1): transitions
Stopped→Running; calling `Run` while already Running fails with an
"already running" error and has no other effect. -/
def Run (s : Http2ServerLifecycle) : ExecutionResult × Http2ServerLifecycle :=
  if s.is_running then
    (FailureExecutionResult errors.SC_HTTP2_SERVER_ALREADY_RUNNING, s)
  else
    (SuccessExecutionResult, { s with is_running := true })

/-- Modelled from the spec: `Http2Server::Stop` (§4.1): transitions
Running→Stopped; calling `Stop` while already Stopped fails with an
"already stopped" error and has no other effect. -/
def Stop (s : Http2ServerLifecycle) : ExecutionResult × Http2ServerLifecycle :=
  if !s.is_running then
    (FailureExecutionResult errors.SC_HTTP2_SERVER_ALREADY_STOPPED, s)
  else
    (SuccessExecutionResult, { s with is_running := false })

/-- Modelled from the spec: `Http2Server::Init` (§4.1): one-time setup; when
TLS is enabled it constructs the TLS context from the private-key file and
the certificate-chain file and fails with
`SC_HTTP2_SERVER_FAILED_TO_INITIALIZE_TLS_CONTEXT` if either file is missing
or unparsable. The metrics capability is optional and never affects the
outcome. -/
def Init (config : Http2ServerConfig) : ExecutionResult :=
  if config.use_tls && (!config.private_key_file_ok || !config.certificate_chain_file_ok) then
    FailureExecutionResult errors.SC_HTTP2_SERVER_FAILED_TO_INITIALIZE_TLS_CONTEXT
  else
    SuccessExecutionResult

/-- Modelled from the spec: §4.1 "this failure is fatal to starting the
server" — starting the server is `Init` followed by `Run`, where an `Init`
failure short-circuits and leaves the lifecycle untouched. -/
def StartServer (config : Http2ServerConfig) (s : Http2ServerLifecycle) :
    ExecutionResult × Http2ServerLifecycle :=
  if (Init config).Successful then Run s else (Init config, s)

/-- Modelled from the spec: `Http2Server::RegisterResourceHandler` (§4.2):
inserts into the Route Table, a concurrent map keyed by (method, path);
handlers are identified by a numeric tag. A second registration for the same
key fails with "entry already exists" and does not replace the existing
handler. -/
def RegisterResourceHandler (method : HttpMethod) (path : String) (handler : Nat)
    (resource_handlers : HttpMethod × String → Option Nat) :
    ExecutionResult × (HttpMethod × String → Option Nat) :=
  ConcurrentMap.Insert resource_handlers (method, path) handler

end Http2Server

/-- The per-request bookkeeping record `Http2SynchronizationContext`
(spec.md §3): the atomic pending-leg counter, the atomic failure flag, and
the registered handler for this request. The handler function is modelled
by the `ExecutionResult` it produces when it is eventually run. Field names
follow the test file (`sync_context->pending_callbacks`,
`sync_context->failed`, `sync_context->http_handler`). -/
structure Http2SynchronizationContext where
  pending_callbacks : Nat
  failed : Bool
  http_handler_result : ExecutionResult
deriving DecidableEq, Repr

/-- Modelled from the spec: the observable state of the request-serving
core. `active_requests` is the Request Registry (request id →
Synchronization Context). `completed` logs every invocation of a transport
completion callback as a (request id, result) pair, most recent first;
`handler_runs` logs every invocation of a registered handler;
`body_callback_installed` records the requests whose
`on_request_body_received` body-streaming callback has been installed. -/
structure Http2ServerState where
  active_requests : Nat → Option Http2SynchronizationContext
  completed : List (Nat × ExecutionResult)
  handler_runs : List Nat
  body_callback_installed : Nat → Bool

namespace Http2Server

/-- Modelled from the spec: `Http2Server::OnHttp2PendingCallback`
(spec.md §4.4), the single accounting join-point for the pending legs of a
request. It looks up the Synchronization Context (absence is a silent
no-op); if the reported result denotes failure and the failure flag is
still unset, it sets the flag and — as pinned by the repository's
`OnHttp2PendingCallbackFailure` test, which observes the transport
completion callback fire after a single failing call on a context with two
pending legs — finishes the transport context immediately with that failing
result; it then decrements the pending-leg counter; the call that observes
the counter drop to zero performs Finalization: it erases the registry
entry and, when no failure was recorded, runs the registered handler and
delivers the handler's result to the transport completion callback (as
pinned by the `OnHttp2PendingCallbackHttpHandlerFailure` test). -/
def OnHttp2PendingCallback (execution_result : ExecutionResult) (request_id : Nat)
    (s : Http2ServerState) : Http2ServerState :=
  match s.active_requests request_id with
  | none => s
  | some sync =>
    let first_failure := !execution_result.Successful && !sync.failed
    let failed1 := sync.failed || !execution_result.Successful
    let completed1 :=
      if first_failure then (request_id, execution_result) :: s.completed else s.completed
    if sync.pending_callbacks ≠ 1 then
      { s with
        active_requests := fun k =>
          if k = request_id then
            some { sync with failed := failed1,
                             pending_callbacks := sync.pending_callbacks - 1 }
          else s.active_requests k,
        completed := completed1 }
    else if failed1 then
      { s with
        active_requests := fun k => if k = request_id then none else s.active_requests k,
        completed := completed1 }
    else
      { s with
        active_requests := fun k => if k = request_id then none else s.active_requests k,
        completed := (request_id, sync.http_handler_result) :: completed1,
        handler_runs := request_id :: s.handler_runs }

/-- Modelled from the spec: `Http2Server::OnHttp2Cleanup` (spec.md §4.5),
the out-of-band removal path: it erases the Request Registry entry if
present via the registry's erase-if-present primitive; when the entry was
already removed the erase reports "entry not found" and the call is a
no-op. It does not inspect or decrement the pending-leg counter. -/
def OnHttp2Cleanup (activity_id : Nat) (request_id : Nat) (error_code : Nat)
    (s : Http2ServerState) : Http2ServerState :=
  { s with active_requests := (ConcurrentMap.Erase s.active_requests request_id).2 }

/-- Modelled from the spec: the authorization leg's continuation
(spec.md §4.3 step 4): when authorization completes it reports its result
into Pending-Callback Accounting for the request. -/
def OnAuthorizationCallback (authorization_result : ExecutionResult) (request_id : Nat)
    (s : Http2ServerState) : Http2ServerState :=
  OnHttp2PendingCallback authorization_result request_id s

/-- Modelled from the spec: `Http2Server::HandleHttp2Request`
(spec.md §4.3), request admission: constructs a Synchronization Context
with pending-leg counter = 2 and failure flag = false, registers it keyed
by the request id (a collision finishes the transport context with the
insert failure — request ids are generated fresh, a collision is a defect),
installs the body-streaming callback, and initiates the authorization leg.
`authorize_result` is the result returned synchronously by the
authorization capability's `Authorize` call: when it denotes failure the
failure is reported into Pending-Callback Accounting at once (the
continuation never runs), otherwise the continuation
`OnAuthorizationCallback` reports later. `handler_result` models the
registered handler. -/
def HandleHttp2Request (request_id : Nat) (authorize_result : ExecutionResult)
    (handler_result : ExecutionResult) (s : Http2ServerState) : Http2ServerState :=
  let sync : Http2SynchronizationContext :=
    { pending_callbacks := 2, failed := false, http_handler_result := handler_result }
  match s.active_requests request_id with
  | some _ =>
    { s with
      completed :=
        (request_id,
          FailureExecutionResult errors.SC_CONCURRENT_MAP_ENTRY_ALREADY_EXISTS) :: s.completed }
  | none =>
    let s1 : Http2ServerState :=
      { s with
        active_requests := fun k => if k = request_id then some sync else s.active_requests k,
        body_callback_installed := fun k => k = request_id || s.body_callback_installed k }
    if authorize_result.Successful then s1
    else OnHttp2PendingCallback authorize_result request_id s1

end Http2Server

/-- One event arriving at the completion engine for a fixed request: a
pending-leg completion report (from the authorization leg, the handler leg,
or the body-streaming callback) or a transport-triggered cleanup. -/
inductive Http2Event where
  | pendingCallback (result : ExecutionResult)
  | cleanup (activity_id : Nat) (error_code : Nat)
deriving DecidableEq, Repr

/-- Applies one event for `request_id` to the server state. -/
def applyEvent (request_id : Nat) (s : Http2ServerState) : Http2Event → Http2ServerState
  | .pendingCallback r => Http2Server.OnHttp2PendingCallback r request_id s
  | .cleanup a e => Http2Server.OnHttp2Cleanup a request_id e s

/-- Applies an interleaving (a sequence) of events for `request_id`. -/
def applyEvents (request_id : Nat) (es : List Http2Event) (s : Http2ServerState) :
    Http2ServerState :=
  es.foldl (applyEvent request_id) s

/-- Applies a sequence of pending-leg completion reports for `request_id`. -/
def applyCallbacks (request_id : Nat) (rs : List ExecutionResult) (s : Http2ServerState) :
    Http2ServerState :=
  rs.foldl (fun t r => Http2Server.OnHttp2PendingCallback r request_id t) s

/-- Number of times the transport completion callback has been invoked for
`request_id` in state `s`. -/
def firesFor (request_id : Nat) (s : Http2ServerState) : Nat :=
  s.completed.countP (fun p => p.1 == request_id)

open Http2Server

/-- An empty server state: no active requests, no completions. -/
def emptyState : Http2ServerState :=
  { active_requests := fun _ => none, completed := [], handler_runs := [],
    body_callback_installed := fun _ => false }

/-- A state holding one registered Synchronization Context for request id 1
with two pending legs, the failure flag unset, and a succeeding handler —
the shape produced by admission and used by the unit tests. -/
def testState2 : Http2ServerState :=
  { active_requests := fun k => if k = 1 then some ⟨2, false, .success⟩ else none,
    completed := [], handler_runs := [], body_callback_installed := fun _ => false }

lemma OnHttp2PendingCallback_absent (r : ExecutionResult) (id : Nat) (s : Http2ServerState)
    (h : s.active_requests id = none) : OnHttp2PendingCallback r id s = s := by
  unfold OnHttp2PendingCallback
  rw [h]

lemma OnHttp2PendingCallback_present_ne_one (r : ExecutionResult) (id : Nat)
    (s : Http2ServerState) (sync : Http2SynchronizationContext)
    (h : s.active_requests id = some sync) (hp : sync.pending_callbacks ≠ 1) :
    OnHttp2PendingCallback r id s =
      { s with
        active_requests := fun k =>
          if k = id then
            some { sync with failed := sync.failed || !r.Successful,
                             pending_callbacks := sync.pending_callbacks - 1 }
          else s.active_requests k,
        completed :=
          if !r.Successful && !sync.failed then (id, r) :: s.completed else s.completed } := by
  unfold OnHttp2PendingCallback
  rw [h]
  simp [hp]

lemma OnHttp2PendingCallback_zero_failed (r : ExecutionResult) (id : Nat)
    (s : Http2ServerState) (sync : Http2SynchronizationContext)
    (h : s.active_requests id = some sync) (hp : sync.pending_callbacks = 1)
    (hf : (sync.failed || !r.Successful) = true) :
    OnHttp2PendingCallback r id s =
      { s with
        active_requests := fun k => if k = id then none else s.active_requests k,
        completed :=
          if !r.Successful && !sync.failed then (id, r) :: s.completed else s.completed } := by
  unfold OnHttp2PendingCallback
  rw [h]
  simp [hp, hf]

lemma OnHttp2PendingCallback_zero_ok (r : ExecutionResult) (id : Nat)
    (s : Http2ServerState) (sync : Http2SynchronizationContext)
    (h : s.active_requests id = some sync) (hp : sync.pending_callbacks = 1)
    (hf : sync.failed = false) (hr : r.Successful = true) :
    OnHttp2PendingCallback r id s =
      { s with
        active_requests := fun k => if k = id then none else s.active_requests k,
        completed := (id, sync.http_handler_result) :: s.completed,
        handler_runs := id :: s.handler_runs } := by
  unfold OnHttp2PendingCallback
  rw [h]
  simp [hp, hf, hr]

lemma OnHttp2Cleanup_present (a e id : Nat) (s : Http2ServerState)
    (sync : Http2SynchronizationContext) (h : s.active_requests id = some sync) :
    OnHttp2Cleanup a id e s =
      { s with active_requests := fun k => if k = id then none else s.active_requests k } := by
  unfold OnHttp2Cleanup ConcurrentMap.Erase
  rw [h]

lemma OnHttp2Cleanup_absent (a e id : Nat) (s : Http2ServerState)
    (h : s.active_requests id = none) : OnHttp2Cleanup a id e s = s := by
  unfold OnHttp2Cleanup ConcurrentMap.Erase
  rw [h]

/-- C4: `OnHttp2Cleanup` erases the Request Registry entry for the given
request id if present (leaving response delivery and handler bookkeeping
untouched); if the entry is absent the call is a no-op whose underlying
erase reports only "entry not found"; an `OnHttp2PendingCallback` for an
absent request id is a silent no-op; and after Cleanup a Find on that id
reports that the entry does not exist. -/
theorem c4_cleanup_and_late_callback_noop (s : Http2ServerState) (a e id : Nat) :
    (∀ sync, s.active_requests id = some sync →
      (OnHttp2Cleanup a id e s).active_requests id = none
      ∧ (OnHttp2Cleanup a id e s).completed = s.completed
      ∧ (OnHttp2Cleanup a id e s).handler_runs = s.handler_runs)
    ∧ (s.active_requests id = none →
      OnHttp2Cleanup a id e s = s
      ∧ (ConcurrentMap.Erase s.active_requests id).1 =
          FailureExecutionResult errors.SC_CONCURRENT_MAP_ENTRY_DOES_NOT_EXIST
      ∧ ∀ r, OnHttp2PendingCallback r id s = s)
    ∧ (ConcurrentMap.Find (OnHttp2Cleanup a id e s).active_requests id).1 =
        FailureExecutionResult errors.SC_CONCURRENT_MAP_ENTRY_DOES_NOT_EXIST := by
  refine ⟨fun sync h => ?_, fun h => ?_, ?_⟩
  · rw [OnHttp2Cleanup_present a e id s sync h]
    simp
  · exact ⟨OnHttp2Cleanup_absent a e id s h,
      by unfold ConcurrentMap.Erase; rw [h],
      fun r => OnHttp2PendingCallback_absent r id s h⟩
  · rcases hfind : s.active_requests id with _ | sync
    · rw [OnHttp2Cleanup_absent a e id s hfind]
      unfold ConcurrentMap.Find
      rw [hfind]
    · rw [OnHttp2Cleanup_present a e id s sync hfind]
      unfold ConcurrentMap.Find
      simp

/-- Closed witness for C4 at a concrete state: cleanup on the registered
request id 1 of `testState2` and the no-op cases at the absent id 5. -/
theorem c4_cleanup_and_late_callback_noop_witness :
    (OnHttp2Cleanup 0 1 0 testState2).active_requests 1 = none
    ∧ OnHttp2Cleanup 0 5 0 testState2 = testState2
    ∧ OnHttp2PendingCallback (.failure 9) 5 testState2 = testState2
    ∧ (ConcurrentMap.Find (OnHttp2Cleanup 0 1 0 testState2).active_requests 1).1 =
        FailureExecutionResult errors.SC_CONCURRENT_MAP_ENTRY_DOES_NOT_EXIST := by
  refine ⟨((c4_cleanup_and_late_callback_noop testState2 0 0 1).1 ⟨2, false, .success⟩ rfl).1,
    ((c4_cleanup_and_late_callback_noop testState2 0 0 5).2.1 rfl).1,
    ((c4_cleanup_and_late_callback_noop testState2 0 0 5).2.1 rfl).2.2 (.failure 9),
    (c4_cleanup_and_late_callback_noop testState2 0 0 1).2.2⟩

/-- C5: after `HandleHttp2Request` admits a fresh request, the Request
Registry holds a Synchronization Context for the request id with
pending-leg counter 2 and failure flag false, and the body-streaming
callback has been installed on the transport request. -/
theorem c5_admission_registers_sync_context (s : Http2ServerState) (id : Nat)
    (hres : ExecutionResult) (hfresh : s.active_requests id = none) :
    (ConcurrentMap.Find
        (HandleHttp2Request id SuccessExecutionResult hres s).active_requests id).1 =
      SuccessExecutionResult
    ∧ (HandleHttp2Request id SuccessExecutionResult hres s).active_requests id =
        some { pending_callbacks := 2, failed := false, http_handler_result := hres }
    ∧ (HandleHttp2Request id SuccessExecutionResult hres s).body_callback_installed id = true := by
  unfold HandleHttp2Request
  rw [hfresh]
  unfold ConcurrentMap.Find
  simp [SuccessExecutionResult, ExecutionResult.Successful]

/-- Closed witness for C5: admitting request id 7 into the empty state. -/
theorem c5_admission_registers_sync_context_witness :
    (HandleHttp2Request 7 SuccessExecutionResult .success emptyState).active_requests 7 =
      some { pending_callbacks := 2, failed := false, http_handler_result := .success }
    ∧ (HandleHttp2Request 7 SuccessExecutionResult .success emptyState).body_callback_installed 7 =
        true :=
  ⟨(c5_admission_registers_sync_context emptyState 7 .success rfl).2.1,
   (c5_admission_registers_sync_context emptyState 7 .success rfl).2.2⟩


/-- C6: for a request whose authorization leg succeeds but whose registered
handler returns a failure with a specific code, Finalization surfaces
exactly that handler failure code to the transport completion callback, the
handler having run exactly once, and the registry entry is removed. -/
theorem c6_handler_failure_code_surfaced (s : Http2ServerState) (id c : Nat)
    (hfresh : s.active_requests id = none) :
    (OnHttp2PendingCallback SuccessExecutionResult id
        (OnAuthorizationCallback SuccessExecutionResult id
          (HandleHttp2Request id SuccessExecutionResult (.failure c) s))).completed =
      (id, ExecutionResult.failure c) :: s.completed
    ∧ (OnHttp2PendingCallback SuccessExecutionResult id
        (OnAuthorizationCallback SuccessExecutionResult id
          (HandleHttp2Request id SuccessExecutionResult (.failure c) s))).handler_runs =
        id :: s.handler_runs
    ∧ (OnHttp2PendingCallback SuccessExecutionResult id
        (OnAuthorizationCallback SuccessExecutionResult id
          (HandleHttp2Request id SuccessExecutionResult (.failure c) s))).active_requests id =
        none := by
  unfold OnAuthorizationCallback OnHttp2PendingCallback HandleHttp2Request
  rw [hfresh]
  simp [SuccessExecutionResult, ExecutionResult.Successful]

/-- Closed witness for C6: handler failure code 12345 (the code used by the
`OnHttp2PendingCallbackHttpHandlerFailure` test) surfaces for request 7. -/
theorem c6_handler_failure_code_surfaced_witness :
    (OnHttp2PendingCallback SuccessExecutionResult 7
        (OnAuthorizationCallback SuccessExecutionResult 7
          (HandleHttp2Request 7 SuccessExecutionResult (.failure 12345) emptyState))).completed =
      [(7, ExecutionResult.failure 12345)]
    ∧ (OnHttp2PendingCallback SuccessExecutionResult 7
        (OnAuthorizationCallback SuccessExecutionResult 7
          (HandleHttp2Request 7 SuccessExecutionResult
            (.failure 12345) emptyState))).active_requests 7 = none :=
  ⟨(c6_handler_failure_code_surfaced emptyState 7 12345 rfl).1,
   (c6_handler_failure_code_surfaced emptyState 7 12345 rfl).2.2⟩

/-- C7: `RegisterResourceHandler` succeeds exactly once per distinct
(method, path) key: the first registration returns success and installs the
handler; a second registration for the same key fails with "entry already
exists", leaves the Route Table unchanged, and the first handler remains
active. -/
theorem c7_register_resource_handler_unique
    (m : HttpMethod × String → Option Nat) (method : HttpMethod) (path : String)
    (h1 h2 : Nat) (hfresh : m (method, path) = none) :
    (RegisterResourceHandler method path h1 m).1 = SuccessExecutionResult
    ∧ (RegisterResourceHandler method path h1 m).2 (method, path) = some h1
    ∧ (RegisterResourceHandler method path h2
        ((RegisterResourceHandler method path h1 m).2)).1 =
        FailureExecutionResult errors.SC_CONCURRENT_MAP_ENTRY_ALREADY_EXISTS
    ∧ (RegisterResourceHandler method path h2
        ((RegisterResourceHandler method path h1 m).2)).2 =
        (RegisterResourceHandler method path h1 m).2
    ∧ (RegisterResourceHandler method path h2
        ((RegisterResourceHandler method path h1 m).2)).2 (method, path) = some h1 := by
  unfold RegisterResourceHandler ConcurrentMap.Insert
  rw [hfresh]
  simp

/-- Closed witness for C7: registering (GET, "/test/path") twice, as the
`RegisterHandlers` test does. -/
theorem c7_register_resource_handler_unique_witness :
    (RegisterResourceHandler HttpMethod.GET "/test/path" 1 (fun _ => none)).1 =
      SuccessExecutionResult
    ∧ (RegisterResourceHandler HttpMethod.GET "/test/path" 2
        ((RegisterResourceHandler HttpMethod.GET "/test/path" 1 (fun _ => none)).2)).1 =
        FailureExecutionResult errors.SC_CONCURRENT_MAP_ENTRY_ALREADY_EXISTS
    ∧ (RegisterResourceHandler HttpMethod.GET "/test/path" 2
        ((RegisterResourceHandler HttpMethod.GET "/test/path" 1 (fun _ => none)).2)).2
        (HttpMethod.GET, "/test/path") = some 1 :=
  ⟨(c7_register_resource_handler_unique (fun _ => none) HttpMethod.GET "/test/path" 1 2 rfl).1,
   (c7_register_resource_handler_unique (fun _ => none) HttpMethod.GET "/test/path" 1 2 rfl).2.2.1,
   (c7_register_resource_handler_unique (fun _ => none) HttpMethod.GET "/test/path" 1 2
     rfl).2.2.2.2⟩

/-- C8: `Run` on a Running server fails with "already running" and leaves
the server Running; `Stop` on a Stopped server fails with "already stopped"
and leaves it Stopped; a successful `Run` transitions Stopped to Running
and a successful `Stop` transitions Running to Stopped. The two concrete
states cover the whole lifecycle state space. -/
theorem c8_lifecycle_run_stop :
    Run ⟨true⟩ = (FailureExecutionResult errors.SC_HTTP2_SERVER_ALREADY_RUNNING, ⟨true⟩)
    ∧ Stop ⟨false⟩ = (FailureExecutionResult errors.SC_HTTP2_SERVER_ALREADY_STOPPED, ⟨false⟩)
    ∧ Run ⟨false⟩ = (SuccessExecutionResult, ⟨true⟩)
    ∧ Stop ⟨true⟩ = (SuccessExecutionResult, ⟨false⟩) :=
  ⟨rfl, rfl, rfl, rfl⟩

/-- C9: when TLS is enabled, `Init` fails with the TLS-context
initialization error if the private-key file or the certificate-chain file
is missing or unparsable, and that failure prevents starting the server
(the lifecycle stays as it was, not Running); when both files are valid,
`Init` succeeds. -/
theorem c9_init_tls_failure (config : Http2ServerConfig) (s : Http2ServerLifecycle)
    (htls : config.use_tls = true) :
    ((config.private_key_file_ok = false ∨ config.certificate_chain_file_ok = false) →
      Init config =
        FailureExecutionResult errors.SC_HTTP2_SERVER_FAILED_TO_INITIALIZE_TLS_CONTEXT
      ∧ StartServer config s =
          (FailureExecutionResult errors.SC_HTTP2_SERVER_FAILED_TO_INITIALIZE_TLS_CONTEXT, s))
    ∧ (config.private_key_file_ok = true → config.certificate_chain_file_ok = true →
      Init config = SuccessExecutionResult) := by
  constructor
  · intro hbad
    have hinit : Init config =
        FailureExecutionResult errors.SC_HTTP2_SERVER_FAILED_TO_INITIALIZE_TLS_CONTEXT := by
      unfold Init
      rcases hbad with hk | hc
      · rw [htls, hk]
        simp
      · rw [htls, hc]
        simp
    refine ⟨hinit, ?_⟩
    unfold StartServer
    rw [hinit]
    rfl
  · intro hk hc
    unfold Init
    rw [htls, hk, hc]
    rfl

/-- Closed witness for C9: a TLS server with a missing private-key file
fails to Init and does not start; one with both files valid Inits. -/
theorem c9_init_tls_failure_witness :
    Init ⟨true, false, true, none⟩ =
      FailureExecutionResult errors.SC_HTTP2_SERVER_FAILED_TO_INITIALIZE_TLS_CONTEXT
    ∧ StartServer ⟨true, false, true, none⟩ ⟨false⟩ =
        (FailureExecutionResult errors.SC_HTTP2_SERVER_FAILED_TO_INITIALIZE_TLS_CONTEXT, ⟨false⟩)
    ∧ Init ⟨true, true, true, none⟩ = SuccessExecutionResult :=
  ⟨((c9_init_tls_failure ⟨true, false, true, none⟩ ⟨false⟩ rfl).1 (Or.inl rfl)).1,
   ((c9_init_tls_failure ⟨true, false, true, none⟩ ⟨false⟩ rfl).1 (Or.inl rfl)).2,
   (c9_init_tls_failure ⟨true, true, true, none⟩ ⟨false⟩ rfl).2 rfl rfl⟩

/-- C10: the metrics capability is genuinely optional: `Init` never
consults the metrics reference (replacing it with `none` does not change
the result), and with a null metrics reference and otherwise valid
configuration, `Init`, `Run` and `Stop` all succeed. -/
theorem c10_metrics_optional (config : Http2ServerConfig)
    (hnull : config.metric_client = none)
    (hvalid : config.use_tls = true →
      config.private_key_file_ok = true ∧ config.certificate_chain_file_ok = true) :
    (∀ cfg : Http2ServerConfig, Init { cfg with metric_client := none } = Init cfg)
    ∧ Init config = SuccessExecutionResult
    ∧ Run ⟨false⟩ = (SuccessExecutionResult, ⟨true⟩)
    ∧ Stop ⟨true⟩ = (SuccessExecutionResult, ⟨false⟩) := by
  refine ⟨fun cfg => rfl, ?_, rfl, rfl⟩
  unfold Init
  rcases htls : config.use_tls with _ | _
  · rfl
  · rw [(hvalid htls).1, (hvalid htls).2]
    rfl

/-- Closed witness for C10: a TLS-enabled server constructed with a null
metrics reference completes Init, Run and Stop successfully. -/
theorem c10_metrics_optional_witness :
    Init ⟨true, true, true, none⟩ = SuccessExecutionResult
    ∧ Run ⟨false⟩ = (SuccessExecutionResult, ⟨true⟩)
    ∧ Stop ⟨true⟩ = (SuccessExecutionResult, ⟨false⟩) :=
  ⟨(c10_metrics_optional ⟨true, true, true, none⟩ rfl (fun _ => ⟨rfl, rfl⟩)).2.1,
   (c10_metrics_optional ⟨true, true, true, none⟩ rfl (fun _ => ⟨rfl, rfl⟩)).2.2.1,
   (c10_metrics_optional ⟨true, true, true, none⟩ rfl (fun _ => ⟨rfl, rfl⟩)).2.2.2⟩

/-- C3: for an admitted request whose authorization fails — synchronously
at initiation or later through its continuation — the registered handler is
never invoked, the transport completion callback fires exactly once
carrying the authorization's failure result, and once the remaining pending
leg reports, the counter reaches zero and the registry entry is removed. -/
theorem c3_authorization_failure_skips_handler (s : Http2ServerState) (id c : Nat)
    (hres r : ExecutionResult) (hfresh : s.active_requests id = none) :
    ((OnHttp2PendingCallback r id
        (HandleHttp2Request id (.failure c) hres s)).handler_runs = s.handler_runs
      ∧ (OnHttp2PendingCallback r id
          (HandleHttp2Request id (.failure c) hres s)).completed =
          (id, ExecutionResult.failure c) :: s.completed
      ∧ (OnHttp2PendingCallback r id
          (HandleHttp2Request id (.failure c) hres s)).active_requests id = none
      ∧ (ConcurrentMap.Find (OnHttp2PendingCallback r id
          (HandleHttp2Request id (.failure c) hres s)).active_requests id).1 =
          FailureExecutionResult errors.SC_CONCURRENT_MAP_ENTRY_DOES_NOT_EXIST)
    ∧ ((OnHttp2PendingCallback r id
        (OnAuthorizationCallback (.failure c) id
          (HandleHttp2Request id SuccessExecutionResult hres s))).handler_runs =
          s.handler_runs
      ∧ (OnHttp2PendingCallback r id
          (OnAuthorizationCallback (.failure c) id
            (HandleHttp2Request id SuccessExecutionResult hres s))).completed =
          (id, ExecutionResult.failure c) :: s.completed
      ∧ (OnHttp2PendingCallback r id
          (OnAuthorizationCallback (.failure c) id
            (HandleHttp2Request id SuccessExecutionResult hres s))).active_requests id =
          none) := by
  constructor
  · rcases r with _ | rc | rc <;>
      simp [OnHttp2PendingCallback, HandleHttp2Request, ConcurrentMap.Find, hfresh,
        SuccessExecutionResult, ExecutionResult.Successful, FailureExecutionResult]
  · rcases r with _ | rc | rc <;>
      simp [OnAuthorizationCallback, OnHttp2PendingCallback, HandleHttp2Request, hfresh,
        SuccessExecutionResult, ExecutionResult.Successful, FailureExecutionResult]

/-- Closed witness for C3: authorization failing synchronously with code
123 (as in the `HandleHttp2RequestFailed` test) for request 7: the handler
never runs, the callback observes failure 123, and after the remaining leg
reports, the entry is gone. -/
theorem c3_authorization_failure_skips_handler_witness :
    (OnHttp2PendingCallback SuccessExecutionResult 7
        (HandleHttp2Request 7 (.failure 123) .success emptyState)).handler_runs = []
    ∧ (OnHttp2PendingCallback SuccessExecutionResult 7
        (HandleHttp2Request 7 (.failure 123) .success emptyState)).completed =
        [(7, ExecutionResult.failure 123)]
    ∧ (OnHttp2PendingCallback SuccessExecutionResult 7
        (HandleHttp2Request 7 (.failure 123) .success emptyState)).active_requests 7 = none :=
  ⟨(c3_authorization_failure_skips_handler emptyState 7 123 .success
      SuccessExecutionResult rfl).1.1,
   (c3_authorization_failure_skips_handler emptyState 7 123 .success
      SuccessExecutionResult rfl).1.2.1,
   (c3_authorization_failure_skips_handler emptyState 7 123 .success
      SuccessExecutionResult rfl).1.2.2.1⟩

@[simp] lemma applyCallbacks_nil (id : Nat) (s : Http2ServerState) :
    applyCallbacks id [] s = s := rfl

@[simp] lemma applyCallbacks_cons (id : Nat) (r : ExecutionResult)
    (rs : List ExecutionResult) (s : Http2ServerState) :
    applyCallbacks id (r :: rs) s = applyCallbacks id rs (OnHttp2PendingCallback r id s) := rfl

@[simp] lemma applyEvents_nil (id : Nat) (s : Http2ServerState) :
    applyEvents id [] s = s := rfl

@[simp] lemma applyEvents_cons (id : Nat) (e : Http2Event) (es : List Http2Event)
    (s : Http2ServerState) :
    applyEvents id (e :: es) s = applyEvents id es (applyEvent id s e) := rfl

lemma applyCallbacks_absent (id : Nat) (rs : List ExecutionResult) :
    ∀ s : Http2ServerState, s.active_requests id = none → applyCallbacks id rs s = s := by
  induction rs with
  | nil => intro s _; rfl
  | cons r rest ih =>
    intro s h
    rw [applyCallbacks_cons, OnHttp2PendingCallback_absent r id s h]
    exact ih s h

lemma OnHttp2PendingCallback_zero_erases (r : ExecutionResult) (id : Nat)
    (s : Http2ServerState) (sync : Http2SynchronizationContext)
    (h : s.active_requests id = some sync) (hp : sync.pending_callbacks = 1) :
    (OnHttp2PendingCallback r id s).active_requests id = none := by
  unfold OnHttp2PendingCallback
  rw [h]
  rcases hf : (sync.failed || !r.Successful) <;> simp [hp, hf]

lemma applyCallbacks_counts (id : Nat) (rs : List ExecutionResult) :
    ∀ (s : Http2ServerState) (sync : Http2SynchronizationContext),
      s.active_requests id = some sync →
      (rs.length = sync.pending_callbacks → 1 ≤ sync.pending_callbacks →
        (applyCallbacks id rs s).active_requests id = none)
      ∧ (rs.length < sync.pending_callbacks →
        ∃ sync2, (applyCallbacks id rs s).active_requests id = some sync2
          ∧ sync2.pending_callbacks = sync.pending_callbacks - rs.length
          ∧ sync2.http_handler_result = sync.http_handler_result
          ∧ (sync.failed = true → sync2.failed = true)
          ∧ ((∃ x ∈ rs, x.Successful = false) → sync2.failed = true)) := by
  induction rs with
  | nil =>
    intro s sync h
    constructor
    · intro hlen h1
      simp at hlen
      omega
    · intro _
      refine ⟨sync, by simpa using h, by simp, rfl, fun hf => hf, ?_⟩
      rintro ⟨x, hx, _⟩
      cases hx
  | cons r rest ih =>
    intro s sync h
    by_cases hp : sync.pending_callbacks = 1
    · have herase := OnHttp2PendingCallback_zero_erases r id s sync h hp
      have hrest := applyCallbacks_absent id rest _ herase
      constructor
      · intro _ _
        rw [applyCallbacks_cons, hrest]
        exact herase
      · intro hlt
        rw [hp] at hlt
        simp at hlt
    · rcases hz : sync.pending_callbacks with _ | n
      · constructor
        · intro hlen h1
          omega
        · intro hlt
          exact absurd hlt (Nat.not_lt_zero _)
      · have hstep := OnHttp2PendingCallback_present_ne_one r id s sync h hp
        have h2 : (OnHttp2PendingCallback r id s).active_requests id =
            some { pending_callbacks := n,
                   failed := sync.failed || !r.Successful,
                   http_handler_result := sync.http_handler_result } := by
          rw [hstep]
          simp [hz]
        obtain ⟨ihA, ihB⟩ := ih (OnHttp2PendingCallback r id s) _ h2
        constructor
        · intro hlen h1
          rw [applyCallbacks_cons]
          apply ihA <;> simp_all <;> omega
        · intro hlt
          have hlt2 : rest.length < n := by
            simp at hlt
            omega
          obtain ⟨sync2, hfind, hpend, hhandler, hmono, hfail⟩ := ihB (by simpa using hlt2)
          refine ⟨sync2, by simpa using hfind, ?_, hhandler, ?_, ?_⟩
          · rw [hpend]
            show n - rest.length = n + 1 - (rest.length + 1)
            omega
          · intro hf
            exact hmono (by simp [hf])
          · rintro ⟨x, hx, hxf⟩
            rcases List.mem_cons.mp hx with rfl | hxrest
            · exact hmono (by simp [hxf])
            · exact hfail ⟨x, hxrest, hxf⟩

/-- C2: for a Synchronization Context registered with N pending legs, each
`OnHttp2PendingCallback` call decrements the pending-leg counter by exactly
one; a call whose result denotes failure sets the failure flag (the flag
only ever moves false to true and is never reset); the counter reaches
zero — triggering Finalization, whose registry effect is erasing the
entry — after exactly N calls regardless of call order, with the entry
still present (in particular after a failing call) whenever fewer than N
calls have arrived. -/
theorem c2_pending_counter_accounting (s : Http2ServerState)
    (sync : Http2SynchronizationContext) (id N : Nat)
    (h : s.active_requests id = some sync) (hN : sync.pending_callbacks = N) :
    (∀ r : ExecutionResult, 2 ≤ N →
      (OnHttp2PendingCallback r id s).active_requests id =
        some { pending_callbacks := N - 1,
               failed := sync.failed || !r.Successful,
               http_handler_result := sync.http_handler_result })
    ∧ (∀ rs : List ExecutionResult, 1 ≤ N → rs.length = N →
      (applyCallbacks id rs s).active_requests id = none)
    ∧ (∀ rs : List ExecutionResult, rs.length < N →
      ∃ sync2, (applyCallbacks id rs s).active_requests id = some sync2
        ∧ sync2.pending_callbacks = N - rs.length
        ∧ (sync.failed = true → sync2.failed = true)
        ∧ ((∃ x ∈ rs, x.Successful = false) → sync2.failed = true)) := by
  refine ⟨fun r h2 => ?_, fun rs h1 hlen => ?_, fun rs hlt => ?_⟩
  · have hp : sync.pending_callbacks ≠ 1 := by omega
    rw [OnHttp2PendingCallback_present_ne_one r id s sync h hp]
    simp [hN]
  · exact (applyCallbacks_counts id rs s sync h).1 (by omega) (by omega)
  · obtain ⟨sync2, hfind, hpend, _, hmono, hfail⟩ :=
      (applyCallbacks_counts id rs s sync h).2 (by omega)
    exact ⟨sync2, hfind, by omega, hmono, hfail⟩

/-- Closed witness for C2 at the test's configuration: a context with two
pending legs loses exactly one pending slot per call (a failing first call
leaving the entry present with the flag set), and is erased after exactly
two calls. -/
theorem c2_pending_counter_accounting_witness :
    (OnHttp2PendingCallback (.failure 1234) 1 testState2).active_requests 1 =
      some { pending_callbacks := 1, failed := true, http_handler_result := .success }
    ∧ (applyCallbacks 1 [.failure 1234, .failure 1234] testState2).active_requests 1 = none
    ∧ ∃ sync2,
        (applyCallbacks 1 [.failure 1234] testState2).active_requests 1 = some sync2
        ∧ sync2.pending_callbacks = 1 := by
  have hc2 := c2_pending_counter_accounting testState2 ⟨2, false, .success⟩ 1 2 rfl rfl
  refine ⟨?_, hc2.2.1 [.failure 1234, .failure 1234] (by omega) rfl, ?_⟩
  · have := hc2.1 (.failure 1234) (by omega)
    simpa using this
  · obtain ⟨sync2, hfind, hpend, _, _⟩ := hc2.2.2 [.failure 1234] (by simp)
    exact ⟨sync2, hfind, by simpa using hpend⟩

lemma firesFor_pcb_present (r : ExecutionResult) (id : Nat) (s : Http2ServerState)
    (sync : Http2SynchronizationContext) (h : s.active_requests id = some sync) :
    firesFor id (OnHttp2PendingCallback r id s) =
      firesFor id s +
        (if (r.Successful = false ∧ sync.failed = false)
            ∨ (r.Successful = true ∧ sync.pending_callbacks = 1 ∧ sync.failed = false)
         then 1 else 0) := by
  unfold OnHttp2PendingCallback firesFor
  rw [h]
  by_cases hp : sync.pending_callbacks = 1 <;>
    rcases hs : r.Successful <;>
      rcases hf : sync.failed <;>
        simp [hp, hs, hf, List.countP_cons]

lemma firesFor_cleanup (a e id : Nat) (s : Http2ServerState) :
    firesFor id (OnHttp2Cleanup a id e s) = firesFor id s := rfl

/-- Invariant tying the registry entry for a request to the number of
transport-completion deliveries for it: while the entry is present the
callback has fired exactly zero times (flag unset) or exactly once (flag
set, the early failure delivery); once the entry is gone, at most once. -/
def DeliveryInv (id : Nat) (s : Http2ServerState) : Prop :=
  (∀ sync : Http2SynchronizationContext, s.active_requests id = some sync →
    (sync.failed = false → firesFor id s = 0) ∧ (sync.failed = true → firesFor id s = 1))
  ∧ firesFor id s ≤ 1

lemma DeliveryInv_pcb (r : ExecutionResult) (id : Nat) (s : Http2ServerState)
    (hInv : DeliveryInv id s) : DeliveryInv id (OnHttp2PendingCallback r id s) := by
  rcases h : s.active_requests id with _ | sync
  · rw [OnHttp2PendingCallback_absent r id s h]
    exact hInv
  · obtain ⟨hpres, hle⟩ := hInv
    obtain ⟨h0, h1⟩ := hpres sync h
    have hfire := firesFor_pcb_present r id s sync h
    by_cases hp : sync.pending_callbacks = 1
    · have hnone := OnHttp2PendingCallback_zero_erases r id s sync h hp
      constructor
      · intro sync2 h2
        rw [hnone] at h2
        cases h2
      · rw [hfire]
        split_ifs with hcond
        · rcases hcond with ⟨_, hf⟩ | ⟨_, _, hf⟩ <;> simp [h0 hf]
        · omega
    · have hstep := OnHttp2PendingCallback_present_ne_one r id s sync h hp
      have h2 : (OnHttp2PendingCallback r id s).active_requests id =
          some { pending_callbacks := sync.pending_callbacks - 1,
                 failed := sync.failed || !r.Successful,
                 http_handler_result := sync.http_handler_result } := by
        rw [hstep]
        simp
      constructor
      · intro sync2 hs2
        rw [h2] at hs2
        cases hs2
        rw [hfire]
        rcases hf : sync.failed <;> rcases hs : r.Successful <;>
          simp_all
      · rw [hfire]
        split_ifs with hcond
        · rcases hcond with ⟨_, hf⟩ | ⟨_, _, hf⟩ <;> simp [h0 hf]
        · omega

lemma DeliveryInv_cleanup (a e id : Nat) (s : Http2ServerState)
    (hInv : DeliveryInv id s) : DeliveryInv id (OnHttp2Cleanup a id e s) := by
  obtain ⟨hpres, hle⟩ := hInv
  constructor
  · intro sync2 h2
    rcases h : s.active_requests id with _ | sync
    · rw [OnHttp2Cleanup_absent a e id s h] at h2 ⊢
      exact hpres sync2 h2
    · rw [OnHttp2Cleanup_present a e id s sync h] at h2
      simp at h2
  · rw [firesFor_cleanup]
    exact hle

lemma DeliveryInv_events (id : Nat) (es : List Http2Event) :
    ∀ s : Http2ServerState, DeliveryInv id s → DeliveryInv id (applyEvents id es s) := by
  induction es with
  | nil => intro s hInv; exact hInv
  | cons e rest ih =>
    intro s hInv
    rw [applyEvents_cons]
    apply ih
    cases e with
    | pendingCallback r => exact DeliveryInv_pcb r id s hInv
    | cleanup a e2 => exact DeliveryInv_cleanup a e2 id s hInv

/-- C1 counterexample: the claim as stated fails on the code at concrete
inputs. On a Synchronization Context registered for request id 1 with two
pending legs and the failure flag unset (`testState2`): (a) for the
interleaving Cleanup, authorization-completion (success),
handler-completion (success), the transport completion callback fires zero
times — not exactly once; and (b) a single failing
`OnHttp2PendingCallback`, which decrements the counter only to 1 (not to
zero) and leaves the registry entry present, already delivers the failure
response — so a call other than the zero-decrementing one is not a no-op
for response delivery, as the repository's `OnHttp2PendingCallbackFailure`
test asserts. -/
theorem c1_counterexample_exactly_once_fails :
    firesFor 1 (applyEvents 1
      [.cleanup 0 0, .pendingCallback .success, .pendingCallback .success] testState2) = 0
    ∧ firesFor 1 (OnHttp2PendingCallback (.failure 1234) 1 testState2) = 1
    ∧ (OnHttp2PendingCallback (.failure 1234) 1 testState2).active_requests 1 =
        some { pending_callbacks := 1, failed := true, http_handler_result := .success }
    ∧ (OnHttp2PendingCallback (.failure 1234) 1 testState2).completed =
        [(1, ExecutionResult.failure 1234)] :=
  ⟨rfl, rfl, rfl, rfl⟩

/-- C1 (amended): across any interleaving of pending-leg completions and
Cleanup calls on a registered Synchronization Context whose failure flag is
unset and for which no response has been delivered, the transport
completion callback is invoked at most once; a response is delivered
exactly by an `OnHttp2PendingCallback` that either records the first
failure (even though the counter has not reached zero) or decrements the
counter to zero with the failure flag unset; every `OnHttp2Cleanup` call
and every pending callback on an absent request id is a no-op for response
delivery. -/
theorem c1_amended_at_most_once_delivery :
    (∀ (s : Http2ServerState) (sync : Http2SynchronizationContext) (id : Nat)
        (es : List Http2Event),
      s.active_requests id = some sync → sync.failed = false → firesFor id s = 0 →
      firesFor id (applyEvents id es s) ≤ 1)
    ∧ (∀ (s : Http2ServerState) (sync : Http2SynchronizationContext)
        (r : ExecutionResult) (id : Nat),
      s.active_requests id = some sync →
      firesFor id (OnHttp2PendingCallback r id s) =
        firesFor id s +
          (if (r.Successful = false ∧ sync.failed = false)
              ∨ (r.Successful = true ∧ sync.pending_callbacks = 1 ∧ sync.failed = false)
           then 1 else 0))
    ∧ (∀ (s : Http2ServerState) (a e id : Nat),
      firesFor id (OnHttp2Cleanup a id e s) = firesFor id s)
    ∧ (∀ (s : Http2ServerState) (r : ExecutionResult) (id : Nat),
      s.active_requests id = none → OnHttp2PendingCallback r id s = s) := by
  refine ⟨fun s sync id es h hf hfires => ?_, fun s sync r id h => firesFor_pcb_present r id s sync h,
    fun s a e id => firesFor_cleanup a e id s, fun s r id h => OnHttp2PendingCallback_absent r id s h⟩
  have hInv : DeliveryInv id s := by
    constructor
    · intro sync2 h2
      rw [h] at h2
      cases h2
      exact ⟨fun _ => hfires, fun hft => absurd hft (by rw [hf]; simp)⟩
    · rw [hfires]
      omega
  exact (DeliveryInv_events id es s hInv).2

/-- Closed witness for the amended C1: the interleaving first-leg failure,
second-leg success, Cleanup on `testState2` delivers at most one response,
and a pending callback for the unregistered id 5 is a no-op. -/
theorem c1_amended_at_most_once_delivery_witness :
    firesFor 1 (applyEvents 1
      [.pendingCallback (.failure 1234), .pendingCallback .success, .cleanup 0 0]
      testState2) ≤ 1
    ∧ OnHttp2PendingCallback (.failure 9) 5 testState2 = testState2 :=
  ⟨c1_amended_at_most_once_delivery.1 testState2 ⟨2, false, .success⟩ 1
      [.pendingCallback (.failure 1234), .pendingCallback .success, .cleanup 0 0] rfl rfl rfl,
   c1_amended_at_most_once_delivery.2.2.2 testState2 (.failure 9) 5 rfl⟩
